import Mathlib

/-!
Shallow embedding of the fixxer process-policy daemon (Python sources under
src/fixer/) and verification of the frozen claims about it.

Conventions of the embedding:
* Python strings are Lean `String`; Python string comparison (used by
  `sorted`) is code-point lexicographic, embedded as `pyStrLt`.
* Python `float` CPU percentages and thresholds are embedded as `Rat`
  (the claims only depend on order comparisons).
* Python dicts keyed by pid are embedded as association lists in insertion
  order; `defaultdict(int)` reads are lookups with default 0.
* psutil calls are embedded as fields of `ProcInfo` (the per-cycle snapshot
  row): `nice = none` models the NoSuchProcess/AccessDenied/ZombieProcess
  race on a priority read, `termResult` models the outcome of a termination
  attempt, `cpu_fresh` models the `proc.cpu_percent(None)` fallback read
  (`none` meaning that call raised, which the code maps to 0.0).
* Logging and OS mutations are embedded as an `Event` trace.
-/

namespace Fixxer

/-- Whitespace characters recognized by the `\s` class used in
`fixer/utils.py` (ASCII fragment: space, tab, newline, CR, VT, FF). -/
def isSpaceChar (c : Char) : Bool :=
  c == ' ' || c == '\t' || c == '\n' || c == '\r' || c == '\x0b' || c == '\x0c'

/-- Embedding of `fixer/utils.py` `normalize_process_name`: `None` and the
empty string map to `""`; otherwise lowercase and remove all whitespace
(the strip is subsumed by global whitespace removal). -/
def normalize_process_name (value : Option String) : String :=
  match value with
  | none => ""
  | some s =>
    if s = "" then ""
    else String.mk ((s.data.map Char.toLower).filter (fun c => !isSpaceChar c))

/-- Python `str.strip()` on the ASCII whitespace fragment. -/
def pyStrip (s : String) : String :=
  String.mk (((s.data.dropWhile isSpaceChar).reverse.dropWhile isSpaceChar).reverse)

/-- Python `str.lower()` (ASCII fragment). -/
def pyLower (s : String) : String :=
  String.mk (s.data.map Char.toLower)

/-- Substring occurrence test: Python `needle in hay` for strings. -/
def listIsSub (needle hay : List Char) : Bool :=
  match hay with
  | [] => needle.isEmpty
  | _ :: t => needle.isPrefixOf hay || listIsSub needle t

/-- String containment, `strContains hay needle` embeds Python
`needle in hay`. -/
def strContains (hay needle : String) : Bool :=
  listIsSub needle.data hay.data

/-- Code-point lexicographic order on character lists, the order Python uses
to compare strings. -/
def charsLt (a b : List Char) : Bool :=
  match a, b with
  | [], [] => false
  | [], _ :: _ => true
  | _ :: _, [] => false
  | x :: xs, y :: ys =>
    if x.toNat < y.toNat then true
    else if y.toNat < x.toNat then false
    else charsLt xs ys

/-- Python string `<`. -/
def pyStrLt (a b : String) : Bool :=
  charsLt a.data b.data

/-- Enforcement mode, `fixer/models.py` `Mode`. -/
inductive Mode
  | safe
  | balanced
  | aggressive
deriving DecidableEq

/-- Profile target bundle, `fixer/models.py` `ProfileConfig`. -/
structure ProfileConfig where
  boost : List String
  throttle : List String
  close : List String
deriving DecidableEq

/-- Suspicion indicator configuration, `fixer/models.py` `SuspiciousConfig`. -/
structure SuspiciousConfig where
  authorized_recorders : List String
  recorder_indicators : List String
  keylogger_indicators : List String
  miner_indicators : List String
  always_terminate_names : List String
deriving DecidableEq

/-- Application configuration, `fixer/models.py` `AppConfig`; the profiles
dict is an association list keyed by profile name.  Fields that no claim
touches (loop interval, learning file paths, log level) are omitted. -/
structure AppConfig where
  mode : Mode
  hog_cpu_percent : Rat
  hog_observation_windows : Nat
  game_processes : List String
  streaming_processes : List String
  profiles : List (String × ProfileConfig)
  suspicious : SuspiciousConfig
  protected_processes : List String
  resource_allowlist : List String
deriving DecidableEq

/-- Detected usage context, `fixer/models.py` `ContextState`. -/
structure ContextState where
  profile_name : String
  active_game : Option String
  streaming_active : Bool
  foreground_process : Option String
deriving DecidableEq

/-- Embedding of `ContextEngine._find_active_game`: a truthy foreground name
that is a configured game wins; otherwise the first configured game present
in the running-name set; otherwise none. -/
def find_active_game (cfg : AppConfig) (running : List String)
    (foreground : Option String) : Option String :=
  match foreground with
  | some f =>
    if f ≠ "" ∧ f ∈ cfg.game_processes then some f
    else cfg.game_processes.find? (fun g => decide (g ∈ running))
  | none => cfg.game_processes.find? (fun g => decide (g ∈ running))

/-- Embedding of `ContextEngine.detect`. -/
def detect (cfg : AppConfig) (running : List String)
    (foreground : Option String) : ContextState :=
  let active_game := find_active_game cfg running foreground
  let streaming_active := cfg.streaming_processes.any (fun s => decide (s ∈ running))
  let profile_name :=
    if streaming_active && active_game.isSome then "streaming"
    else if active_game.isSome then "gaming"
    else "default"
  ⟨profile_name, active_game, streaming_active, foreground⟩

/-- Classifier finding, `fixer/models.py` `Suspicion`. -/
structure Suspicion where
  kind : String
  reason : String
deriving DecidableEq

/-- Embedding of `ProcessClassifier._is_unauthorized_recorder`: allowlisted
names are never flagged; otherwise any truthy recorder indicator occurring
in the name flags it. -/
def is_unauthorized_recorder (cfg : AppConfig) (name : String) : Bool :=
  if name ∈ cfg.suspicious.authorized_recorders then false
  else cfg.suspicious.recorder_indicators.any
    (fun i => (i != "") && strContains name i)

/-- Embedding of `ProcessClassifier._matches_any`. -/
def matches_any (indicators : List String) (name cmdline : String) : Bool :=
  indicators.any (fun i => (i != "") && (strContains name i || strContains cmdline i))

/-- Embedding of `ProcessClassifier.classify`: re-normalizes both inputs and
appends one finding per matching kind, in the fixed order recorder,
keylogger, miner. -/
def classify (cfg : AppConfig) (name cmdline : String) : List Suspicion :=
  let normalized_name := normalize_process_name (some name)
  let normalized_cmdline := pyLower (pyStrip cmdline)
  (if is_unauthorized_recorder cfg normalized_name then
    [⟨"unauthorized_recorder", "Recorder pattern matched and process is not authorized"⟩]
   else []) ++
  (if matches_any cfg.suspicious.keylogger_indicators normalized_name normalized_cmdline then
    [⟨"possible_keylogger", "Keylogger indicator matched process name or command line"⟩]
   else []) ++
  (if matches_any cfg.suspicious.miner_indicators normalized_name normalized_cmdline then
    [⟨"possible_miner", "Cryptominer indicator matched process name or command line"⟩]
   else [])

/-- Derived configuration suggestion, `fixer/learning.py` `LearningSuggestion`. -/
structure LearningSuggestion where
  target : String
  value : String
  reason : String
  confidence : String
  evidence_count : Nat
deriving DecidableEq

/-- Learning counters, the mutable state of `fixer/learning.py`
`LearningEngine`, embedded as association lists in insertion order (the
iteration order of the Python dicts). -/
structure LearningState where
  process_seen : List (String × Nat)
  profile_seen : List ((String × String) × Nat)
  hog_events : List (String × Nat)
  suspicion_events : List ((String × String) × Nat)
  foreground_profile_seen : List ((String × String) × Nat)
deriving DecidableEq

/-- Read of a `defaultdict(int)` keyed by a string pair: the stored count, or
0 when the key is absent.  (The defaultdict also inserts the key on a miss;
that side effect does not change any count and is not modelled.) -/
def lookupCount2 (m : List ((String × String) × Nat)) (k : String × String) : Nat :=
  ((m.find? (fun e => decide (e.1 = k))).map Prod.snd).getD 0

/-- Resource-allowlist candidates, first loop of
`LearningEngine._build_suggestions`. -/
def hog_suggestions (cfg : AppConfig) (M : Nat) (ls : LearningState) :
    List LearningSuggestion :=
  ls.hog_events.filterMap (fun e =>
    let name := e.1
    let hog_count := e.2
    if name ∈ cfg.protected_processes ∨ name ∈ cfg.resource_allowlist then none
    else
      let session_count := lookupCount2 ls.profile_seen ("gaming", name) +
        lookupCount2 ls.profile_seen ("streaming", name)
      if hog_count < M ∨ session_count < M then none
      else some ⟨"resource_allowlist", name,
        "Frequently detected as a CPU hog during gaming/streaming sessions",
        if M * 2 ≤ hog_count then "high" else "medium", hog_count⟩)

/-- Authorized-recorder candidates, second loop of
`LearningEngine._build_suggestions`. -/
def recorder_suggestions (cfg : AppConfig) (M : Nat) (ls : LearningState) :
    List LearningSuggestion :=
  ls.suspicion_events.filterMap (fun e =>
    let name := e.1.1
    let kind := e.1.2
    let count := e.2
    if kind ≠ "unauthorized_recorder" then none
    else if name ∈ cfg.suspicious.authorized_recorders ∨ name ∈ cfg.protected_processes then none
    else if count < M then none
    else if lookupCount2 ls.profile_seen ("streaming", name) < M then none
    else some ⟨"suspicious.authorized_recorders", name,
      "Frequently flagged as recorder while streaming profile is active",
      if M * 2 ≤ count then "high" else "medium", count⟩)

/-- Game and streaming candidates, third loop of
`LearningEngine._build_suggestions`; each foreground counter entry can emit
up to two suggestions, the game one first. -/
def foreground_suggestions (cfg : AppConfig) (M : Nat) (ls : LearningState) :
    List LearningSuggestion :=
  ls.foreground_profile_seen.flatMap (fun e =>
    let profile := e.1.1
    let name := e.1.2
    let count := e.2
    if count < M ∨ name ∈ cfg.protected_processes then []
    else
      (if profile = "gaming" ∧ name ∉ cfg.game_processes then
        [⟨"game_processes", name,
          "Frequently foreground while gaming profile is active",
          if M * 2 ≤ count then "high" else "low", count⟩]
       else []) ++
      (if profile = "streaming" ∧ name ∉ cfg.streaming_processes ∧ name ∉ cfg.game_processes then
        [⟨"streaming_processes", name,
          "Frequently foreground while streaming profile is active",
          if M * 2 ≤ count then "high" else "low", count⟩]
       else []))

/-- The `suggestions` list of `_build_suggestions` before deduplication. -/
def raw_suggestions (cfg : AppConfig) (M : Nat) (ls : LearningState) :
    List LearningSuggestion :=
  hog_suggestions cfg M ls ++ recorder_suggestions cfg M ls ++ foreground_suggestions cfg M ls

/-- Deduplication key of a suggestion. -/
def suggKey (s : LearningSuggestion) : String × String :=
  (s.target, s.value)

/-- One step of the dedup dict fold: a new key is appended, an existing key
is overwritten in place exactly when the new entry has strictly larger
evidence count. -/
def dedupStep (acc : List LearningSuggestion) (s : LearningSuggestion) :
    List LearningSuggestion :=
  match acc.find? (fun t => decide (suggKey t = suggKey s)) with
  | none => acc ++ [s]
  | some existing =>
    if existing.evidence_count < s.evidence_count then
      acc.map (fun t => if suggKey t = suggKey s then s else t)
    else acc

/-- The `deduped` dict of `_build_suggestions`, in insertion order. -/
def dedupe (l : List LearningSuggestion) : List LearningSuggestion :=
  l.foldl dedupStep []

/-- Sort order of the final `sorted(..., key=(target, -evidence_count,
value))` call: target ascending, evidence count descending, value
ascending. -/
def suggLE (a b : LearningSuggestion) : Prop :=
  pyStrLt a.target b.target = true ∨
    (a.target = b.target ∧
      (b.evidence_count < a.evidence_count ∨
        (a.evidence_count = b.evidence_count ∧
          (pyStrLt a.value b.value = true ∨ a.value = b.value))))

instance : DecidableRel suggLE := fun a b => by
  unfold suggLE
  infer_instance

/-- Embedding of `LearningEngine._build_suggestions` with the engine's
`_min_occurrences` passed as `M`; Python `sorted` (a stable sort) is
embedded as insertion sort, which is also stable. -/
def build_suggestions (cfg : AppConfig) (M : Nat) (ls : LearningState) :
    List LearningSuggestion :=
  List.insertionSort suggLE (dedupe (raw_suggestions cfg M ls))

/-- Outcome of a real (non-dry-run) termination attempt, covering the four
branches of `OptimizerAgent._terminate_process`. -/
inductive TermResult
  | ok
  | timeoutThenKilled
  | timeoutKillRaced
  | raced
deriving DecidableEq

/-- One row of the per-cycle process snapshot (`proc.info` of
`psutil.process_iter` plus the OS behaviour the agent would observe when
acting on the process this cycle). -/
structure ProcInfo where
  pid : Nat
  name : Option String
  cmdline : Option (List String)
  cpu_percent : Option Rat
  cpu_fresh : Option Rat
  nice : Option Int
  termResult : TermResult
deriving DecidableEq

/-- Observable effects of a cycle: log lines, learning-engine hooks and OS
mutations, in program order. -/
inductive Event
  | contextLog (profile : String) (active_game : Option String)
      (streaming : Bool) (foreground : Option String)
  | observeCycle
  | wouldClose (pid : Nat) (name : String)
  | dryRunSetPriority (pid : Nat) (name : String) (level : String) (reason : String)
  | niceCall (pid : Nat) (priority : Int)
  | setPriorityLog (pid : Nat) (name : String) (level : String) (reason : String)
  | priorityUpdateFailed (pid : Nat) (name : String)
  | dryRunTerminate (pid : Nat) (name : String) (reason : String)
  | terminateCall (pid : Nat)
  | terminatedLog (pid : Nat) (name : String) (reason : String)
  | killCall (pid : Nat)
  | killedLog (pid : Nat) (name : String) (reason : String)
  | killFailed (pid : Nat) (name : String)
  | terminateFailed (pid : Nat) (name : String)
  | hogWarning (pid : Nat) (name : String) (cpu : Rat)
  | safeKeepLog (pid : Nat) (name : String)
  | observeHog (name : String)
  | suspicionWarning (pid : Nat) (name : String) (kind : String) (reason : String)
  | observeSuspicion (name : String) (kind : String)
  | noEnforcementLog (pid : Nat) (name : String) (kind : String)
  | cycleError (msg : String)
deriving DecidableEq

/-- Mutable per-agent state of `OptimizerAgent`: the three per-pid maps, the
thread-guarded overrides and the context bookkeeping.  Maps are association
lists in insertion order. -/
structure AgentState where
  hog_windows : List (Nat × Nat)
  priority_cache : List (Nat × Int)
  seen_suspicion : List (Nat × String)
  mode_override : Option Mode
  profile_override : Option String
  latest_context : Option ContextState
  last_context_signature : Option (String × Option String × Bool × Option String)
deriving DecidableEq

/-- Construction parameters of the agent plus the ambient platform. -/
structure Params where
  isWindows : Bool
  dry_run : Bool
  learningAttached : Bool
  selfPid : Nat
deriving DecidableEq

/-- Fresh agent state (`OptimizerAgent.__init__`). -/
def initialAgentState : AgentState :=
  ⟨[], [], [], none, none, none, none⟩

/-- Association-list lookup keyed by pid. -/
def alGet {α : Type} (m : List (Nat × α)) (k : Nat) : Option α :=
  (m.find? (fun e => e.1 == k)).map Prod.snd

/-- Association-list write keyed by pid: overwrite in place, else append. -/
def alSet {α : Type} (m : List (Nat × α)) (k : Nat) (v : α) : List (Nat × α) :=
  if (m.find? (fun e => e.1 == k)).isSome then
    m.map (fun e => if e.1 == k then (k, v) else e)
  else m ++ [(k, v)]

/-- Association-list removal keyed by pid (`dict.pop(k, None)`). -/
def alErase {α : Type} (m : List (Nat × α)) (k : Nat) : List (Nat × α) :=
  m.filter (fun e => e.1 != k)

/-- Embedding of `OptimizerAgent._effective_mode`: override if pinned, else
the configured mode. -/
def effective_mode (cfg : AppConfig) (st : AgentState) : Mode :=
  st.mode_override.getD cfg.mode

/-- Embedding of `OptimizerAgent._is_protected`. -/
def is_protected (cfg : AppConfig) (name : String) : Bool :=
  decide (name ∈ cfg.protected_processes)

/-- Embedding of the module-level `_WINDOWS_PRIORITY` / `_POSIX_PRIORITY`
tables indexed by the five level names (callers only pass those five). -/
def priority_for_level (isWin : Bool) (level : String) : Int :=
  if isWin then
    if level = "idle" then 64
    else if level = "below_normal" then 16384
    else if level = "normal" then 32
    else if level = "above_normal" then 32768
    else 128
  else
    if level = "idle" then 19
    else if level = "below_normal" then 10
    else if level = "normal" then 0
    else if level = "above_normal" then -5
    else -10

/-- Embedding of `OptimizerAgent._set_priority`.  `p.nice = none` models the
read of `proc.nice()` raising one of the expected psutil races (caught and
logged at debug severity, cache left untouched). -/
def set_priority (pr : Params) (cfg : AppConfig) (st : AgentState)
    (p : ProcInfo) (level reason : String) : AgentState × List Event :=
  let name := normalize_process_name p.name
  if name = "" ∨ is_protected cfg name = true ∨ p.pid = pr.selfPid then (st, [])
  else
    let priority := priority_for_level pr.isWindows level
    if alGet st.priority_cache p.pid = some priority then (st, [])
    else if pr.dry_run then
      ({ st with priority_cache := alSet st.priority_cache p.pid priority },
        [Event.dryRunSetPriority p.pid name level reason])
    else
      match p.nice with
      | none => (st, [Event.priorityUpdateFailed p.pid name])
      | some current =>
        if current ≠ priority then
          ({ st with priority_cache := alSet st.priority_cache p.pid priority },
            [Event.niceCall p.pid priority, Event.setPriorityLog p.pid name level reason])
        else
          ({ st with priority_cache := alSet st.priority_cache p.pid priority }, [])

/-- Embedding of `OptimizerAgent._terminate_process`. -/
def terminate_process (pr : Params) (cfg : AppConfig) (st : AgentState)
    (p : ProcInfo) (reason : String) : AgentState × List Event :=
  let name := normalize_process_name p.name
  if name = "" ∨ is_protected cfg name = true ∨ p.pid = pr.selfPid then (st, [])
  else if pr.dry_run then (st, [Event.dryRunTerminate p.pid name reason])
  else
    match p.termResult with
    | TermResult.ok =>
      ({ st with priority_cache := alErase st.priority_cache p.pid },
        [Event.terminateCall p.pid, Event.terminatedLog p.pid name reason])
    | TermResult.timeoutThenKilled =>
      (st, [Event.terminateCall p.pid, Event.killCall p.pid, Event.killedLog p.pid name reason])
    | TermResult.timeoutKillRaced =>
      (st, [Event.terminateCall p.pid, Event.killCall p.pid, Event.killFailed p.pid name])
    | TermResult.raced =>
      (st, [Event.terminateCall p.pid, Event.terminateFailed p.pid name])

/-- Enforcement decision of `OptimizerAgent._take_suspicion_action`, as the
action it dispatches to (`ignore` is the implicit fall-through for a kind
outside the three known ones). -/
inductive SuspAction
  | safeNoOp
  | term
  | lower (level : String)
  | ignore
deriving DecidableEq

/-- Embedding of the decision structure of
`OptimizerAgent._take_suspicion_action`. -/
def take_suspicion_action (cfg : AppConfig) (mode : Mode) (name kind : String) :
    SuspAction :=
  if mode = Mode.safe then SuspAction.safeNoOp
  else if kind = "possible_miner" then
    if mode = Mode.aggressive ∨ name ∈ cfg.suspicious.always_terminate_names then
      SuspAction.term
    else SuspAction.lower "idle"
  else if kind = "unauthorized_recorder" then
    if mode = Mode.aggressive then SuspAction.term
    else SuspAction.lower "below_normal"
  else if kind = "possible_keylogger" then
    if mode = Mode.aggressive then SuspAction.term
    else SuspAction.lower "idle"
  else SuspAction.ignore

/-- Dispatch of the decision, mirroring the calls
`_take_suspicion_action` performs in each branch. -/
def apply_suspicion_action (pr : Params) (cfg : AppConfig) (st : AgentState)
    (p : ProcInfo) (name : String) (finding : Suspicion) : AgentState × List Event :=
  match take_suspicion_action cfg (effective_mode cfg st) name finding.kind with
  | SuspAction.safeNoOp => (st, [Event.noEnforcementLog p.pid name finding.kind])
  | SuspAction.term => terminate_process pr cfg st p finding.kind
  | SuspAction.lower level => set_priority pr cfg st p level finding.kind
  | SuspAction.ignore => (st, [])

/-- Embedding of `OptimizerAgent._format_cmdline` for the list / `None`
shapes psutil produces. -/
def format_cmdline (value : Option (List String)) : String :=
  match value with
  | some items => String.intercalate " " items
  | none => ""

/-- Embedding of `OptimizerAgent._read_cpu_percent`: the snapshot value when
it is numeric, else a fresh `cpu_percent(None)` read, 0.0 if that read
raises. -/
def read_cpu_percent (p : ProcInfo) : Rat :=
  match p.cpu_percent with
  | some raw => raw
  | none => p.cpu_fresh.getD 0

/-- Accumulate one state-and-events step of a loop body into the running
(state, events) pair. -/
def stepFold {β : Type} (f : AgentState → β → AgentState × List Event)
    (acc : AgentState × List Event) (x : β) : AgentState × List Event :=
  let step := f acc.1 x
  (step.1, acc.2 ++ step.2)

/-- Per-finding body of the `_handle_suspicious` inner loop: warn once per
(pid, kind), notify the learning engine, enforce. -/
def suspicion_finding_step (pr : Params) (cfg : AppConfig) (p : ProcInfo)
    (name : String) (st : AgentState) (finding : Suspicion) : AgentState × List Event :=
  let logStep : AgentState × List Event :=
    if (p.pid, finding.kind) ∈ st.seen_suspicion then (st, [])
    else
      ({ st with seen_suspicion := st.seen_suspicion ++ [(p.pid, finding.kind)] },
        [Event.suspicionWarning p.pid name finding.kind finding.reason])
  let obsEvs := if pr.learningAttached then [Event.observeSuspicion name finding.kind] else []
  let acted := apply_suspicion_action pr cfg logStep.1 p name finding
  (acted.1, logStep.2 ++ obsEvs ++ acted.2)

/-- Per-process body of the `_handle_suspicious` loop. -/
def handle_suspicious_proc (pr : Params) (cfg : AppConfig) (st : AgentState)
    (p : ProcInfo) : AgentState × List Event :=
  let name := normalize_process_name p.name
  if name = "" ∨ is_protected cfg name = true then (st, [])
  else
    let cmdline := format_cmdline p.cmdline
    let findings := classify cfg name cmdline
    findings.foldl (stepFold (suspicion_finding_step pr cfg p name)) (st, [])

/-- Embedding of `OptimizerAgent._handle_suspicious`. -/
def handle_suspicious (pr : Params) (cfg : AppConfig) (st : AgentState)
    (procs : List ProcInfo) : AgentState × List Event :=
  procs.foldl (stepFold (handle_suspicious_proc pr cfg)) (st, [])

/-- Exemption set of `_handle_resource_hogs`: resource allowlist, streaming
processes, and the current active game. -/
def hog_exempt (cfg : AppConfig) (ctx : ContextState) (name : String) : Bool :=
  decide (name ∈ cfg.resource_allowlist) || decide (name ∈ cfg.streaming_processes) ||
    decide (ctx.active_game = some name)

/-- Per-process body of the `_handle_resource_hogs` loop: below-threshold
readings clear the pid's window counter; at or above threshold the counter
increments, and on reaching the configured window count the detection fires
(warning, learning hook, mode-gated enforcement) and the counter re-arms
to 0. -/
def handle_resource_hogs_proc (pr : Params) (cfg : AppConfig) (ctx : ContextState)
    (st : AgentState) (p : ProcInfo) : AgentState × List Event :=
  let name := normalize_process_name p.name
  if name = "" then (st, [])
  else if hog_exempt cfg ctx name = true ∨ is_protected cfg name = true then (st, [])
  else
    let cpu := read_cpu_percent p
    if cpu < cfg.hog_cpu_percent then
      ({ st with hog_windows := alErase st.hog_windows p.pid }, [])
    else
      let count := (alGet st.hog_windows p.pid).getD 0 + 1
      let st1 := { st with hog_windows := alSet st.hog_windows p.pid count }
      if count < cfg.hog_observation_windows then (st1, [])
      else
        let obsEvs := if pr.learningAttached then [Event.observeHog name] else []
        let acted : AgentState × List Event :=
          match effective_mode cfg st1 with
          | Mode.safe => (st1, [Event.safeKeepLog p.pid name])
          | Mode.balanced => set_priority pr cfg st1 p "idle" "resource hog"
          | Mode.aggressive => terminate_process pr cfg st1 p "resource hog"
        ({ acted.1 with hog_windows := alSet acted.1.hog_windows p.pid 0 },
          Event.hogWarning p.pid name cpu :: obsEvs ++ acted.2)

/-- Embedding of `OptimizerAgent._handle_resource_hogs`, including the final
removal of window counters for pids absent from the snapshot. -/
def handle_resource_hogs (pr : Params) (cfg : AppConfig) (ctx : ContextState)
    (st : AgentState) (procs : List ProcInfo) : AgentState × List Event :=
  let folded := procs.foldl (stepFold (handle_resource_hogs_proc pr cfg ctx)) (st, [])
  let live := procs.map ProcInfo.pid
  ({ folded.1 with hog_windows := folded.1.hog_windows.filter (fun e => live.contains e.1) },
    folded.2)

/-- Embedding of `OptimizerAgent._resolve_targets`: the placeholder token is
replaced by the active game, or dropped when none is set. -/
def resolve_targets (targets : List String) (ctx : ContextState) : List String :=
  targets.foldl (fun acc t =>
    if t = "\x7bactive_game\x7d" then
      match ctx.active_game with
      | some g => acc ++ [g]
      | none => acc
    else acc ++ [t]) []

/-- Embedding of `OptimizerAgent._index_by_name` viewed as a lookup: the
snapshot rows with the given nonempty normalized name, in snapshot order. -/
def index_by_name (procs : List ProcInfo) (name : String) : List ProcInfo :=
  if name = "" then []
  else procs.filter (fun p => normalize_process_name p.name == name)

/-- Embedding of `OptimizerAgent._apply_profile_actions`.  The profile dict
subscript is the one operation of the cycle body that can raise (`KeyError`
when the context profile is not configured), hence the `Except`. -/
def apply_profile_actions (pr : Params) (cfg : AppConfig) (st : AgentState)
    (procs : List ProcInfo) (ctx : ContextState) :
    Except String (AgentState × List Event) :=
  match (cfg.profiles.find? (fun e => e.1 == ctx.profile_name)).map Prod.snd with
  | none => Except.error "KeyError: unknown profile"
  | some profile =>
    let boost_targets := resolve_targets profile.boost ctx
    let throttle_targets := resolve_targets profile.throttle ctx
    let close_targets := resolve_targets profile.close ctx
    let boost_priority :=
      if ctx.profile_name = "gaming" ∨ ctx.profile_name = "streaming" then "high"
      else "above_normal"
    let mode := effective_mode cfg st
    let step1 := boost_targets.foldl (fun acc t =>
      (index_by_name procs t).foldl (fun acc2 p =>
        let r := set_priority pr cfg acc2.1 p boost_priority (ctx.profile_name ++ " boost")
        (r.1, acc2.2 ++ r.2)) acc) (st, [])
    let step2 := throttle_targets.foldl (fun acc t =>
      (index_by_name procs t).foldl (fun acc2 p =>
        let r := set_priority pr cfg acc2.1 p "below_normal" (ctx.profile_name ++ " throttle")
        (r.1, acc2.2 ++ r.2)) acc) step1
    let step3 := close_targets.foldl (fun acc t =>
      (index_by_name procs t).foldl (fun acc2 p =>
        if mode = Mode.safe then
          (acc2.1, acc2.2 ++ [Event.wouldClose p.pid (normalize_process_name p.name)])
        else
          let r := terminate_process pr cfg acc2.1 p (ctx.profile_name ++ " close target")
          (r.1, acc2.2 ++ r.2)) acc) step2
    Except.ok step3

/-- Embedding of `OptimizerAgent._cleanup_state`: drop priority-cache and
suspicion-dedup entries whose pid is absent from the snapshot. -/
def cleanup_state (st : AgentState) (procs : List ProcInfo) : AgentState :=
  let active := procs.map ProcInfo.pid
  { st with
    priority_cache := st.priority_cache.filter (fun e => active.contains e.1),
    seen_suspicion := st.seen_suspicion.filter (fun e => active.contains e.1) }

/-- The `running_names` set comprehension of `_run_cycle` (a list whose
membership is the set's membership): normalized names of snapshot rows with
a truthy raw name. -/
def running_names (procs : List ProcInfo) : List String :=
  procs.filterMap (fun p =>
    match p.name with
    | some n => if n = "" then none else some (normalize_process_name p.name)
    | none => none)

/-- Embedding of `OptimizerAgent._log_context`: log only when the context
signature changed. -/
def log_context (st : AgentState) (ctx : ContextState) : AgentState × List Event :=
  let signature := (ctx.profile_name, ctx.active_game, ctx.streaming_active,
    ctx.foreground_process)
  if st.last_context_signature = some signature then (st, [])
  else
    ({ st with last_context_signature := some signature },
      [Event.contextLog ctx.profile_name ctx.active_game ctx.streaming_active
        ctx.foreground_process])

/-- Embedding of `OptimizerAgent._apply_profile_override`: a pinned profile
replaces only the profile field. -/
def apply_profile_override (st : AgentState) (ctx : ContextState) : ContextState :=
  match st.profile_override with
  | none => ctx
  | some ov =>
    if ov = "" then ctx
    else { ctx with profile_name := ov }

/-- Body of one cycle (the code inside the `try` of
`OptimizerAgent._run_cycle`), returning the state reached, the events so
far, and the uncaught exception if one was raised.  The time-gated
`save_if_due` call at the end of the body is I/O and not modelled. -/
def cycle_body (pr : Params) (cfg : AppConfig) (st : AgentState)
    (procs : List ProcInfo) (foreground : Option String) :
    AgentState × List Event × Option String :=
  let names := running_names procs
  let ctx0 := detect cfg names foreground
  let ctx := apply_profile_override st ctx0
  let stA := { st with latest_context := some ctx }
  let logged := log_context stA ctx
  let obsEvs := if pr.learningAttached then [Event.observeCycle] else []
  match apply_profile_actions pr cfg logged.1 procs ctx with
  | Except.error e => (logged.1, logged.2 ++ obsEvs, some e)
  | Except.ok profiled =>
    let hogged := handle_resource_hogs pr cfg ctx profiled.1 procs
    let suspected := handle_suspicious pr cfg hogged.1 procs
    let cleaned := cleanup_state suspected.1 procs
    (cleaned, logged.2 ++ obsEvs ++ profiled.2 ++ hogged.2 ++ suspected.2, none)

/-- Embedding of `OptimizerAgent._run_cycle`: the body's exception, if any,
is caught at the top of the cycle and logged, and the call returns
normally. -/
def run_cycle (pr : Params) (cfg : AppConfig) (st : AgentState)
    (procs : List ProcInfo) (foreground : Option String) : AgentState × List Event :=
  let body := cycle_body pr cfg st procs foreground
  match body.2.2 with
  | none => (body.1, body.2.1)
  | some e => (body.1, body.2.1 ++ [Event.cycleError e])

/-- The cycle loop of `OptimizerAgent.run`, driven by the per-tick inputs
(snapshot and foreground name) the collaborators would supply; returns the
final state and one event list per executed tick. -/
def run_loop (pr : Params) (cfg : AppConfig)
    (ticks : List (List ProcInfo × Option String)) (st : AgentState) :
    AgentState × List (List Event) :=
  match ticks with
  | [] => (st, [])
  | t :: rest =>
    let step := run_cycle pr cfg st t.1 t.2
    let tail := run_loop pr cfg rest step.1
    (tail.1, step.2 :: tail.2)

/-- Iterated hog handling for a single process observed over consecutive
cycles with the given CPU readings (the C2 scenario driver). -/
def hog_cycles (pr : Params) (cfg : AppConfig) (ctx : ContextState)
    (p : ProcInfo) (cpus : List Rat) (st : AgentState) : AgentState × List Event :=
  match cpus with
  | [] => (st, [])
  | c :: rest =>
    let step := handle_resource_hogs pr cfg ctx st [{ p with cpu_percent := some c }]
    let tail := hog_cycles pr cfg ctx p rest step.1
    (tail.1, step.2 ++ tail.2)

/-- Embedding of `OptimizerAgent.set_profile_override`: the argument is
normalized, a non-empty normalized name must be a configured profile (else
`ValueError`), and a falsy normalized name clears the override. -/
def set_profile_override (cfg : AppConfig) (st : AgentState)
    (profile : Option String) : Except String AgentState :=
  let normalized := normalize_process_name profile
  if normalized ≠ "" ∧ normalized ∉ cfg.profiles.map Prod.fst then
    Except.error "Unknown profile override"
  else
    Except.ok { st with profile_override := if normalized = "" then none else some normalized }

/-- Policy table written from the specification claim: action by (effective
mode, finding kind), with the balanced-mode miner row additionally keyed by
membership of the name in the always-terminate list. -/
def specSuspicionPolicy (mode : Mode) (kind : String) (onAlwaysTerminate : Bool) :
    SuspAction :=
  match mode with
  | Mode.safe => SuspAction.safeNoOp
  | Mode.balanced =>
    if kind = "possible_miner" then
      (if onAlwaysTerminate then SuspAction.term else SuspAction.lower "idle")
    else if kind = "unauthorized_recorder" then SuspAction.lower "below_normal"
    else SuspAction.lower "idle"
  | Mode.aggressive => SuspAction.term

/-- Sample configuration used by concrete witnesses (the shape of the test
fixtures in `tests/test_policy.py`). -/
def sampleConfig : AppConfig :=
  { mode := Mode.safe
    hog_cpu_percent := 55
    hog_observation_windows := 2
    game_processes := ["game.exe"]
    streaming_processes := ["obs64.exe"]
    profiles := [("default", ⟨[], [], []⟩), ("gaming", ⟨[], [], []⟩),
      ("streaming", ⟨[], [], []⟩)]
    suspicious :=
      { authorized_recorders := ["obs64.exe"]
        recorder_indicators := ["obs", "bandicam"]
        keylogger_indicators := ["keylog"]
        miner_indicators := ["xmrig", "miner"]
        always_terminate_names := ["xmrig.exe"] }
    protected_processes := ["system"]
    resource_allowlist := [] }

/-- Agent parameters used by concrete scenarios: POSIX platform, dry-run,
no learning engine, own pid 999. -/
def hogParams : Params :=
  ⟨false, true, false, 999⟩

/-- Context with no active game and no streaming, as detected on an idle
system. -/
def defaultCtx : ContextState :=
  ⟨"default", none, false, none⟩

/-- A snapshot row for a CPU-hungry process driven through hog scenarios. -/
def hogProc : ProcInfo :=
  ⟨7, some "hog.exe", none, none, none, some 0, TermResult.ok⟩

/-- Recognizer for the hog-detection warning event (the observable firing of
the hog state machine, emitted in every mode). -/
def isHogWarning (e : Event) : Bool :=
  match e with
  | Event.hogWarning _ _ _ => true
  | _ => false

/-- Learning counters in which the name `x` was foreground at least once
under each of the gaming and the streaming profiles. -/
def learnStateBoth : LearningState :=
  ⟨[], [], [], [], [(("gaming", "x"), 1), (("streaming", "x"), 1)]⟩

/-- Claim C1: for suspicion findings on a non-protected process, the
enforcement action of `_take_suspicion_action` is exactly the (effective
mode, finding kind) policy table of the specification: safe mode never
enforces; balanced mode terminates a possible_miner whose name is on the
always-terminate list and otherwise lowers it to idle, lowers an
unauthorized_recorder to below_normal and a possible_keylogger to idle;
aggressive mode terminates every kind. -/
theorem claim_C1_suspicion_policy_table (cfg : AppConfig) (mode : Mode)
    (name kind : String)
    (hk : kind = "possible_miner" ∨ kind = "unauthorized_recorder" ∨
      kind = "possible_keylogger") :
    take_suspicion_action cfg mode name kind =
      specSuspicionPolicy mode kind
        (decide (name ∈ cfg.suspicious.always_terminate_names)) := by
  rcases hk with h | h | h <;> subst h <;> cases mode <;>
    by_cases hm : name ∈ cfg.suspicious.always_terminate_names <;>
    simp [take_suspicion_action, specSuspicionPolicy, hm]

/-- Witness for C1 at a concrete input: balanced mode, a miner finding on a
name in the always-terminate list, which the table terminates. -/
theorem claim_C1_suspicion_policy_table_witness :
    ("possible_miner" = "possible_miner" ∨ "possible_miner" = "unauthorized_recorder" ∨
      "possible_miner" = "possible_keylogger") ∧
    take_suspicion_action sampleConfig Mode.balanced "xmrig.exe" "possible_miner" =
      specSuspicionPolicy Mode.balanced "possible_miner"
        (decide ("xmrig.exe" ∈ sampleConfig.suspicious.always_terminate_names)) :=
  ⟨Or.inl rfl,
    claim_C1_suspicion_policy_table sampleConfig Mode.balanced "xmrig.exe"
      "possible_miner" (Or.inl rfl)⟩

/-- Claim C3: context detection resolves the active game with foreground
precedence (a foreground configured game wins, else the first configured
game running, else none), sets streaming_active iff some configured
streaming process is running, and picks the profile streaming / gaming /
default accordingly.  The foreground name is an `Option String` whose
payload, produced by the foreground provider, is never the empty string
(Python treats an empty name as falsy). -/
theorem claim_C3_detect (cfg : AppConfig) (running : List String)
    (fg : Option String) (hfg : fg ≠ some "") :
    ((detect cfg running fg).active_game =
      match fg with
      | some f =>
        if f ∈ cfg.game_processes then some f
        else cfg.game_processes.find? (fun g => decide (g ∈ running))
      | none => cfg.game_processes.find? (fun g => decide (g ∈ running))) ∧
    ((detect cfg running fg).streaming_active = true ↔
      ∃ s ∈ cfg.streaming_processes, s ∈ running) ∧
    ((detect cfg running fg).profile_name =
      if (detect cfg running fg).streaming_active = true ∧
          (detect cfg running fg).active_game ≠ none then "streaming"
      else if (detect cfg running fg).active_game ≠ none then "gaming"
      else "default") := by
  refine ⟨?_, ?_, ?_⟩
  · show find_active_game cfg running fg = _
    cases fg with
    | none => rfl
    | some f =>
      have hne : f ≠ "" := by
        intro h
        exact hfg (by rw [h])
      by_cases hf : f ∈ cfg.game_processes
      · simp [find_active_game, hne, hf]
      · simp [find_active_game, hne, hf]
  · show cfg.streaming_processes.any (fun s => decide (s ∈ running)) = true ↔ _
    simp [List.any_eq_true]
  · rcases hag : find_active_game cfg running fg with _ | g <;>
      rcases hsa : cfg.streaming_processes.any (fun s => decide (s ∈ running)) with _ | _ <;>
      simp [detect, hag, hsa]

/-- Witness for C3 at a concrete input: a running configured game and a
running configured streaming process, with the game in the foreground. -/
theorem claim_C3_detect_witness :
    (some "game.exe" ≠ some "") ∧
    ((detect sampleConfig ["game.exe", "obs64.exe"] (some "game.exe")).active_game =
      (if "game.exe" ∈ sampleConfig.game_processes then some "game.exe"
       else sampleConfig.game_processes.find?
         (fun g => decide (g ∈ ["game.exe", "obs64.exe"])))) :=
  ⟨by decide,
    (claim_C3_detect sampleConfig ["game.exe", "obs64.exe"] (some "game.exe")
      (by decide)).1⟩

/-- Characterization of the recorder check: not allowlisted, and some truthy
recorder indicator occurs in the name. -/
theorem is_unauthorized_recorder_iff (cfg : AppConfig) (n : String) :
    is_unauthorized_recorder cfg n = true ↔
      n ∉ cfg.suspicious.authorized_recorders ∧
        ∃ i ∈ cfg.suspicious.recorder_indicators, i ≠ "" ∧ strContains n i = true := by
  unfold is_unauthorized_recorder
  by_cases h : n ∈ cfg.suspicious.authorized_recorders <;>
    simp [h, List.any_eq_true, Bool.and_eq_true, bne_iff_ne, and_assoc]

/-- Characterization of `_matches_any`: some truthy indicator occurs in the
name or the command line. -/
theorem matches_any_iff (indicators : List String) (n c : String) :
    matches_any indicators n c = true ↔
      ∃ i ∈ indicators, i ≠ "" ∧ (strContains n i = true ∨ strContains c i = true) := by
  unfold matches_any
  simp [List.any_eq_true, Bool.and_eq_true, Bool.or_eq_true, bne_iff_ne, and_assoc]

/-- Finding kinds present in a classification, by the three gate booleans. -/
theorem kind_mem_classify (cfg : AppConfig) (name cmdline k : String) :
    (k ∈ (classify cfg name cmdline).map Suspicion.kind) ↔
      ((k = "unauthorized_recorder" ∧
          is_unauthorized_recorder cfg (normalize_process_name (some name)) = true) ∨
        (k = "possible_keylogger" ∧
          matches_any cfg.suspicious.keylogger_indicators
            (normalize_process_name (some name)) (pyLower (pyStrip cmdline)) = true) ∨
        (k = "possible_miner" ∧
          matches_any cfg.suspicious.miner_indicators
            (normalize_process_name (some name)) (pyLower (pyStrip cmdline)) = true)) := by
  by_cases h1 : is_unauthorized_recorder cfg (normalize_process_name (some name)) = true <;>
    by_cases h2 : matches_any cfg.suspicious.keylogger_indicators
      (normalize_process_name (some name)) (pyLower (pyStrip cmdline)) = true <;>
    by_cases h3 : matches_any cfg.suspicious.miner_indicators
      (normalize_process_name (some name)) (pyLower (pyStrip cmdline)) = true <;>
    simp [classify, h1, h2, h3]

/-- Claim C4: after normalization, an unauthorized_recorder finding is
returned iff some configured recorder indicator occurs in the name and the
name is not in the authorized-recorder allowlist (the command line is never
consulted for this kind); a possible_keylogger (respectively possible_miner)
finding is returned iff some configured indicator of that kind occurs in the
name or in the command line; and all applicable kinds are returned together
(each membership holds independently of the others).  The hypotheses record
the config-loader invariant that indicator lists contain no empty string. -/
theorem claim_C4_classify (cfg : AppConfig) (name cmdline : String)
    (hr : "" ∉ cfg.suspicious.recorder_indicators)
    (hk : "" ∉ cfg.suspicious.keylogger_indicators)
    (hm : "" ∉ cfg.suspicious.miner_indicators) :
    (("unauthorized_recorder" ∈ (classify cfg name cmdline).map Suspicion.kind) ↔
      ((∃ i ∈ cfg.suspicious.recorder_indicators,
          strContains (normalize_process_name (some name)) i = true) ∧
        normalize_process_name (some name) ∉ cfg.suspicious.authorized_recorders)) ∧
    (("possible_keylogger" ∈ (classify cfg name cmdline).map Suspicion.kind) ↔
      ∃ i ∈ cfg.suspicious.keylogger_indicators,
        (strContains (normalize_process_name (some name)) i = true ∨
          strContains (pyLower (pyStrip cmdline)) i = true)) ∧
    (("possible_miner" ∈ (classify cfg name cmdline).map Suspicion.kind) ↔
      ∃ i ∈ cfg.suspicious.miner_indicators,
        (strContains (normalize_process_name (some name)) i = true ∨
          strContains (pyLower (pyStrip cmdline)) i = true)) ∧
    (∀ other : String,
      ("unauthorized_recorder" ∈ (classify cfg name other).map Suspicion.kind) ↔
        ("unauthorized_recorder" ∈ (classify cfg name cmdline).map Suspicion.kind)) := by
  refine ⟨?_, ?_, ?_, ?_⟩
  · rw [kind_mem_classify]
    simp only [is_unauthorized_recorder_iff]
    constructor
    · rintro (⟨-, hna, i, hi, -, hc⟩ | ⟨h, -⟩ | ⟨h, -⟩)
      · exact ⟨⟨i, hi, hc⟩, hna⟩
      · exact absurd h (by decide)
      · exact absurd h (by decide)
    · rintro ⟨⟨i, hi, hc⟩, hna⟩
      exact Or.inl ⟨trivial, hna, i, hi, fun he => hr (he ▸ hi), hc⟩
  · rw [kind_mem_classify]
    simp only [matches_any_iff]
    constructor
    · rintro (⟨h, -⟩ | ⟨-, i, hi, -, hc⟩ | ⟨h, -⟩)
      · exact absurd h (by decide)
      · exact ⟨i, hi, hc⟩
      · exact absurd h (by decide)
    · rintro ⟨i, hi, hc⟩
      exact Or.inr (Or.inl ⟨trivial, i, hi, fun he => hk (he ▸ hi), hc⟩)
  · rw [kind_mem_classify]
    simp only [matches_any_iff]
    constructor
    · rintro (⟨h, -⟩ | ⟨h, -⟩ | ⟨-, i, hi, -, hc⟩)
      · exact absurd h (by decide)
      · exact absurd h (by decide)
      · exact ⟨i, hi, hc⟩
    · rintro ⟨i, hi, hc⟩
      exact Or.inr (Or.inr ⟨trivial, i, hi, fun he => hm (he ▸ hi), hc⟩)
  · intro other
    rw [kind_mem_classify, kind_mem_classify]
    constructor
    · rintro (⟨-, h⟩ | ⟨h, -⟩ | ⟨h, -⟩)
      · exact Or.inl ⟨rfl, h⟩
      · exact absurd h (by decide)
      · exact absurd h (by decide)
    · rintro (⟨-, h⟩ | ⟨h, -⟩ | ⟨h, -⟩)
      · exact Or.inl ⟨rfl, h⟩
      · exact absurd h (by decide)
      · exact absurd h (by decide)

/-- Witness for C4 at a concrete input: a miner indicator present only in
the command line still yields a possible_miner finding. -/
theorem claim_C4_classify_witness :
    ("" ∉ sampleConfig.suspicious.recorder_indicators) ∧
    ("" ∉ sampleConfig.suspicious.keylogger_indicators) ∧
    ("" ∉ sampleConfig.suspicious.miner_indicators) ∧
    (("possible_miner" ∈
        (classify sampleConfig "python.exe" "python miner.py").map Suspicion.kind) ↔
      ∃ i ∈ sampleConfig.suspicious.miner_indicators,
        (strContains (normalize_process_name (some "python.exe")) i = true ∨
          strContains (pyLower (pyStrip "python miner.py")) i = true)) :=
  ⟨by decide, by decide, by decide,
    (claim_C4_classify sampleConfig "python.exe" "python miner.py"
      (by decide) (by decide) (by decide)).2.2.1⟩

/-- Whitespace characters are untouched by lowercasing. -/
theorem toLower_space (c : Char) (h : isSpaceChar c = true) : Char.toLower c = c := by
  have h2 := h
  simp only [isSpaceChar, Bool.or_eq_true, beq_iff_eq] at h2
  rcases h2 with ((((h | h) | h) | h) | h) | h <;> subst h <;> decide

/-- Normalizing a whitespace-only name yields the empty string. -/
theorem normalize_all_space (s : String)
    (h : s.data.all isSpaceChar = true) :
    normalize_process_name (some s) = "" := by
  unfold normalize_process_name
  by_cases he : s = ""
  · simp [he]
  · simp only [he, if_false]
    have hfil : ((s.data.map Char.toLower).filter (fun c => !isSpaceChar c)) = [] := by
      apply List.filter_eq_nil_iff.mpr
      intro a ha
      rcases List.mem_map.mp ha with ⟨c, hc, rfl⟩
      have hsp : isSpaceChar c = true := List.all_eq_true.mp h c hc
      rw [toLower_space c hsp]
      simp [hsp]
    rw [hfil]

/-- Claim C10: `set_profile_override` normalizes its argument before
validation; it rejects exactly the non-empty normalized names that are not
configured profiles, treats `none` and whitespace-only strings as clearing
the override, and accepts a name differing from a configured profile only in
case or whitespace as that profile. -/
theorem claim_C10_set_profile_override (cfg : AppConfig) (st : AgentState)
    (p : Option String) :
    ((∃ e, set_profile_override cfg st p = Except.error e) ↔
      (normalize_process_name p ≠ "" ∧
        normalize_process_name p ∉ cfg.profiles.map Prod.fst)) ∧
    (p = none →
      set_profile_override cfg st p =
        Except.ok { st with profile_override := none }) ∧
    (∀ s, p = some s → s.data.all isSpaceChar = true →
      set_profile_override cfg st p =
        Except.ok { st with profile_override := none }) ∧
    (∀ s q, p = some s → normalize_process_name (some s) = q → q ≠ "" →
      q ∈ cfg.profiles.map Prod.fst →
      set_profile_override cfg st p =
        Except.ok { st with profile_override := some q }) := by
  refine ⟨?_, ?_, ?_, ?_⟩
  · unfold set_profile_override
    by_cases h1 : normalize_process_name p = ""
    · simp [h1]
    · by_cases h2 : normalize_process_name p ∈ cfg.profiles.map Prod.fst
      · simp [h1, h2]
      · simp [h1, h2]
  · intro hp
    subst hp
    simp [set_profile_override, normalize_process_name]
  · intro s hp hsp
    subst hp
    unfold set_profile_override
    simp [normalize_all_space s hsp]
  · intro s q hp hq hne hmem
    subst hp
    unfold set_profile_override
    rw [hq]
    simp [hne, hmem]

/-- Witness for C10 at a concrete input: an upper-case name with extra
whitespace is accepted as the configured gaming profile. -/
theorem claim_C10_set_profile_override_witness :
    ((some " GAMING " : Option String) = some " GAMING ") ∧
    (normalize_process_name (some " GAMING ") = "gaming") ∧
    ("gaming" ≠ "") ∧
    ("gaming" ∈ sampleConfig.profiles.map Prod.fst) ∧
    set_profile_override sampleConfig initialAgentState (some " GAMING ") =
      Except.ok { initialAgentState with profile_override := some "gaming" } :=
  ⟨rfl, by decide, by decide, by decide,
    (claim_C10_set_profile_override sampleConfig initialAgentState
      (some " GAMING ")).2.2.2 " GAMING " "gaming" rfl (by decide) (by decide)
      (by decide)⟩

/-- Claim C9: an exception raised anywhere in a cycle's body is caught at
the top of the cycle, logged as a cycle-error event, and the cycle returns
normally; consequently the loop processes every tick it is given, never
self-terminating on a failing cycle. -/
theorem claim_C9_cycle_error_containment (pr : Params) (cfg : AppConfig)
    (ticks : List (List ProcInfo × Option String)) (st stc : AgentState)
    (procs : List ProcInfo) (fg : Option String) :
    ((run_loop pr cfg ticks st).2.length = ticks.length) ∧
    (∀ e, (cycle_body pr cfg stc procs fg).2.2 = some e →
      run_cycle pr cfg stc procs fg =
        ((cycle_body pr cfg stc procs fg).1,
          (cycle_body pr cfg stc procs fg).2.1 ++ [Event.cycleError e])) := by
  constructor
  · induction ticks generalizing st with
    | nil => rfl
    | cons t rest ih => simp [run_loop, ih]
  · intro e he
    simp only [run_cycle]
    rw [he]

/-- Witness for C9 at a concrete input: a configuration with no profiles
makes the profile-dict subscript raise, the cycle returns normally with the
error logged, and a two-tick loop still executes both ticks. -/
theorem claim_C9_cycle_error_containment_witness :
    ((run_loop ⟨false, true, false, 999⟩ { sampleConfig with profiles := [] }
        [([], none), ([], none)] initialAgentState).2.length = 2) ∧
    run_cycle ⟨false, true, false, 999⟩ { sampleConfig with profiles := [] }
        initialAgentState [] none =
      ((cycle_body ⟨false, true, false, 999⟩ { sampleConfig with profiles := [] }
          initialAgentState [] none).1,
        (cycle_body ⟨false, true, false, 999⟩ { sampleConfig with profiles := [] }
          initialAgentState [] none).2.1 ++
          [Event.cycleError "KeyError: unknown profile"]) :=
  ⟨(claim_C9_cycle_error_containment ⟨false, true, false, 999⟩
      { sampleConfig with profiles := [] } [([], none), ([], none)]
      initialAgentState initialAgentState [] none).1,
    (claim_C9_cycle_error_containment ⟨false, true, false, 999⟩
      { sampleConfig with profiles := [] } [([], none), ([], none)]
      initialAgentState initialAgentState [] none).2
      "KeyError: unknown profile" (by decide)⟩

/-- Replacing the entry of key `k` in a list that contains one makes the
first `k`-entry the replacement. -/
theorem find?_replace_of_isSome {α : Type} (k : Nat) (v : α) :
    ∀ m : List (Nat × α), (m.find? (fun e => e.1 == k)).isSome = true →
      (m.map (fun e => if e.1 == k then (k, v) else e)).find? (fun e => e.1 == k) =
        some (k, v) := by
  intro m
  induction m with
  | nil =>
    intro h
    simp [List.find?] at h
  | cons e t ih =>
    intro h
    rcases hb : (e.1 == k) with _ | _
    · have h2 : (t.find? (fun e => e.1 == k)).isSome = true := by
        simpa [List.find?, hb] using h
      simpa [List.find?, hb] using ih h2
    · simp [List.find?, hb]

/-- Appending a `k`-entry to a list with no `k`-entry makes it the found
one. -/
theorem find?_append_of_none {α : Type} (k : Nat) (v : α) :
    ∀ m : List (Nat × α), m.find? (fun e => e.1 == k) = none →
      (m ++ [(k, v)]).find? (fun e => e.1 == k) = some (k, v) := by
  intro m
  induction m with
  | nil =>
    intro _
    simp [List.find?]
  | cons e t ih =>
    intro h
    rcases hb : (e.1 == k) with _ | _
    · have h2 : t.find? (fun e => e.1 == k) = none := by
        simpa [List.find?, hb] using h
      simpa [List.find?, hb] using ih h2
    · simp [List.find?, hb] at h

/-- Looking up a key immediately after writing it returns the written
value. -/
theorem alGet_alSet {α : Type} (m : List (Nat × α)) (k : Nat) (v : α) :
    alGet (alSet m k v) k = some v := by
  unfold alSet alGet
  rcases hf : m.find? (fun e => e.1 == k) with _ | x
  · rw [if_neg (by simp [hf]), find?_append_of_none k v m hf]
    rfl
  · rw [if_pos (by simp [hf]), find?_replace_of_isSome k v m (by simp [hf])]
    rfl

/-- Claim C7: priority enforcement is idempotent through the per-pid
priority cache.  If the cached level for a pid already equals the desired
level, `_set_priority` performs no OS mutation and emits no log line; and
issuing the same level for the same pid twice in a row performs the
mutation/log only on the first call (the hypothesis excludes the case where
the first call itself failed on an OS race and cached nothing). -/
theorem claim_C7_priority_cache_idempotent (pr : Params) (cfg : AppConfig)
    (st : AgentState) (p : ProcInfo) (level reason : String) :
    (alGet st.priority_cache p.pid = some (priority_for_level pr.isWindows level) →
      set_priority pr cfg st p level reason = (st, [])) ∧
    ((pr.dry_run = true ∨ p.nice.isSome = true) →
      set_priority pr cfg (set_priority pr cfg st p level reason).1 p level reason =
        ((set_priority pr cfg st p level reason).1, [])) := by
  constructor
  · intro hc
    unfold set_priority
    by_cases h1 : normalize_process_name p.name = "" ∨
        is_protected cfg (normalize_process_name p.name) = true ∨ p.pid = pr.selfPid
    · simp [h1]
    · simp [h1, hc]
  · intro hok
    by_cases h1 : normalize_process_name p.name = "" ∨
        is_protected cfg (normalize_process_name p.name) = true ∨ p.pid = pr.selfPid
    · simp [set_priority, h1]
    · by_cases h2 : alGet st.priority_cache p.pid =
          some (priority_for_level pr.isWindows level)
      · simp [set_priority, h1, h2]
      · by_cases h3 : pr.dry_run = true
        · simp only [set_priority, h1, h2, h3]
          simp [h1, alGet_alSet]
        · rcases hok with hok | hok
          · exact absurd hok h3
          · rcases hn : p.nice with _ | current
            · rw [hn] at hok
              simp at hok
            · by_cases h4 : current = priority_for_level pr.isWindows level
              · simp only [set_priority, h1, h2, h3, hn, h4]
                simp [h1, alGet_alSet, h3, hn, h4]
              · simp only [set_priority, h1, h2, h3, hn, h4]
                simp [h1, alGet_alSet, h3, hn, h4]

/-- Witness for C7 at a concrete input: a dry-run agent caches priority 19
for pid 5, and a repeated identical request is a no-op. -/
theorem claim_C7_priority_cache_idempotent_witness :
    ((true = true ∨ (some (0 : Int)).isSome = true) ∧
      set_priority ⟨false, true, false, 999⟩ sampleConfig
          (set_priority ⟨false, true, false, 999⟩ sampleConfig initialAgentState
            ⟨5, some "chrome.exe", none, none, none, some 0, TermResult.ok⟩
            "idle" "resource hog").1
          ⟨5, some "chrome.exe", none, none, none, some 0, TermResult.ok⟩
          "idle" "resource hog" =
        ((set_priority ⟨false, true, false, 999⟩ sampleConfig initialAgentState
            ⟨5, some "chrome.exe", none, none, none, some 0, TermResult.ok⟩
            "idle" "resource hog").1, [])) :=
  ⟨Or.inl rfl,
    (claim_C7_priority_cache_idempotent ⟨false, true, false, 999⟩ sampleConfig
      initialAgentState ⟨5, some "chrome.exe", none, none, none, some 0, TermResult.ok⟩
      "idle" "resource hog").2 (Or.inl rfl)⟩

/-- Erasing a key makes its lookup fail. -/
theorem alGet_alErase {α : Type} (m : List (Nat × α)) (k : Nat) :
    alGet (alErase m k) k = none := by
  unfold alErase alGet
  induction m with
  | nil => rfl
  | cons e t ih =>
    rcases hb : (e.1 == k) with _ | _
    · simp only [List.filter_cons, List.find?, hb, bne]
      simp [hb, ih]
    · simp only [List.filter_cons, List.find?, hb, bne]
      simp [hb, ih]

/-- Filtering an association list by a pid set containing `k` does not
change the lookup at `k`. -/
theorem alGet_filter_contains {α : Type} (m : List (Nat × α)) (l : List Nat)
    (k : Nat) (hk : l.contains k = true) :
    alGet (m.filter (fun e => l.contains e.1)) k = alGet m k := by
  unfold alGet
  induction m with
  | nil => rfl
  | cons e t ih =>
    by_cases hbk : e.1 = k
    · have hc : l.contains e.1 = true := by rw [hbk]; exact hk
      have hb : (e.1 == k) = true := beq_iff_eq.mpr hbk
      rw [List.filter_cons, if_pos hc, List.find?_cons, List.find?_cons, hb]
    · have hb : (e.1 == k) = false := by simp [hbk]
      rcases hc : l.contains e.1 with _ | _
      · rw [List.filter_cons, if_neg (by simpa using hc), List.find?_cons, hb]
        exact ih
      · rw [List.filter_cons, if_pos hc, List.find?_cons, List.find?_cons, hb]
        exact ih

/-- The priority setter never touches the hog-window counters. -/
theorem set_priority_hog_windows (pr : Params) (cfg : AppConfig)
    (st : AgentState) (p : ProcInfo) (level reason : String) :
    (set_priority pr cfg st p level reason).1.hog_windows = st.hog_windows := by
  simp only [set_priority]
  repeat' split
  all_goals rfl

/-- The terminator never touches the hog-window counters. -/
theorem terminate_process_hog_windows (pr : Params) (cfg : AppConfig)
    (st : AgentState) (p : ProcInfo) (reason : String) :
    (terminate_process pr cfg st p reason).1.hog_windows = st.hog_windows := by
  simp only [terminate_process]
  repeat' split
  all_goals rfl

/-- The priority setter emits no hog warning. -/
theorem set_priority_no_hogWarning (pr : Params) (cfg : AppConfig)
    (st : AgentState) (p : ProcInfo) (level reason : String) :
    (set_priority pr cfg st p level reason).2.countP isHogWarning = 0 := by
  simp only [set_priority]
  repeat' split
  all_goals simp [isHogWarning]

/-- The terminator emits no hog warning. -/
theorem terminate_process_no_hogWarning (pr : Params) (cfg : AppConfig)
    (st : AgentState) (p : ProcInfo) (reason : String) :
    (terminate_process pr cfg st p reason).2.countP isHogWarning = 0 := by
  simp only [terminate_process]
  repeat' split
  all_goals simp [isHogWarning]

/-- Claim C2 counterexample: with `hog_observation_windows = 2` and
consecutive over-threshold readings for one non-exempt process, three
cycles fire the hog detection once, but a fourth consecutive over-threshold
cycle does re-fire (two fires in total), contradicting the claim that it
does not. -/
theorem claim_C2_counterexample :
    ((hog_cycles hogParams sampleConfig defaultCtx hogProc [90, 90, 90]
        initialAgentState).2.countP isHogWarning = 1) ∧
    ((hog_cycles hogParams sampleConfig defaultCtx hogProc [90, 90, 90, 90]
        initialAgentState).2.countP isHogWarning = 2) := by
  constructor
  · decide
  · decide

/-- Claim C2 (amended): for a non-exempt, non-protected process, a
below-threshold cycle resets its hog window counter to 0 and does not fire;
an over-threshold cycle increments the counter, firing exactly when it
reaches the configured window count, after which the counter re-arms to 0.
With `hog_observation_windows = 2`, three consecutive over-threshold cycles
fire exactly once, on the second cycle — and a fourth consecutive
over-threshold cycle fires again, because two more consecutive windows have
accumulated since the reset. -/
theorem claim_C2_amended_hog_state_machine (pr : Params) (cfg : AppConfig)
    (ctx : ContextState) (st : AgentState) (p : ProcInfo)
    (hname : normalize_process_name p.name ≠ "")
    (hex : hog_exempt cfg ctx (normalize_process_name p.name) = false)
    (hprot : is_protected cfg (normalize_process_name p.name) = false) :
    (read_cpu_percent p < cfg.hog_cpu_percent →
      (alGet (handle_resource_hogs pr cfg ctx st [p]).1.hog_windows p.pid).getD 0 = 0 ∧
      (handle_resource_hogs pr cfg ctx st [p]).2.countP isHogWarning = 0) ∧
    (¬ read_cpu_percent p < cfg.hog_cpu_percent →
      (alGet st.hog_windows p.pid).getD 0 + 1 < cfg.hog_observation_windows →
      (alGet (handle_resource_hogs pr cfg ctx st [p]).1.hog_windows p.pid).getD 0 =
        (alGet st.hog_windows p.pid).getD 0 + 1 ∧
      (handle_resource_hogs pr cfg ctx st [p]).2.countP isHogWarning = 0) ∧
    (¬ read_cpu_percent p < cfg.hog_cpu_percent →
      cfg.hog_observation_windows ≤ (alGet st.hog_windows p.pid).getD 0 + 1 →
      (alGet (handle_resource_hogs pr cfg ctx st [p]).1.hog_windows p.pid).getD 0 = 0 ∧
      (handle_resource_hogs pr cfg ctx st [p]).2.countP isHogWarning = 1) ∧
    ((hog_cycles hogParams sampleConfig defaultCtx hogProc [90]
        initialAgentState).2.countP isHogWarning = 0) ∧
    ((hog_cycles hogParams sampleConfig defaultCtx hogProc [90, 90]
        initialAgentState).2.countP isHogWarning = 1) ∧
    ((hog_cycles hogParams sampleConfig defaultCtx hogProc [90, 90, 90]
        initialAgentState).2.countP isHogWarning = 1) ∧
    ((hog_cycles hogParams sampleConfig defaultCtx hogProc [90, 90, 90, 90]
        initialAgentState).2.countP isHogWarning = 2) := by
  have hpid : ([p].map ProcInfo.pid).contains p.pid = true := by simp
  have hred : handle_resource_hogs pr cfg ctx st [p] =
      (({ (handle_resource_hogs_proc pr cfg ctx st p).1 with
          hog_windows := (handle_resource_hogs_proc pr cfg ctx st p).1.hog_windows.filter
            (fun e => ([p].map ProcInfo.pid).contains e.1) },
        (handle_resource_hogs_proc pr cfg ctx st p).2)) := by
    simp [handle_resource_hogs, stepFold]
  refine ⟨?_, ?_, ?_, by decide, by decide, by decide, by decide⟩
  · intro hcpu
    rw [hred]
    simp only [handle_resource_hogs_proc, hname, hex, hprot]
    simp only [if_neg hname, if_pos hcpu]
    constructor
    · simp only [alGet_filter_contains _ _ _ hpid]
      simp [alGet_alErase, hname, hex, hprot, hcpu]
    · simp [hname, hex, hprot, hcpu]
  · intro hcpu hlt
    rw [hred]
    simp only [handle_resource_hogs_proc]
    simp only [if_neg hname, if_neg hcpu]
    constructor
    · simp only [hex, hprot]
      simp only [alGet_filter_contains _ _ _ hpid]
      simp [hcpu, hlt, alGet_alSet, hname, hex, hprot]
    · simp [hcpu, hlt, hname, hex, hprot]
  · intro hcpu hge
    rw [hred]
    have hnotlt : ¬ ((alGet st.hog_windows p.pid).getD 0 + 1 <
        cfg.hog_observation_windows) := by omega
    simp only [handle_resource_hogs_proc]
    simp only [if_neg hname, if_neg hcpu]
    constructor
    · simp only [hex, hprot]
      simp only [alGet_filter_contains _ _ _ hpid]
      rcases hmode : effective_mode cfg { st with
          hog_windows := alSet st.hog_windows p.pid
            ((alGet st.hog_windows p.pid).getD 0 + 1) } with _ | _ | _ <;>
        simp [hcpu, hnotlt, alGet_alSet, hname, hex, hprot, hmode,
          set_priority_hog_windows, terminate_process_hog_windows]
    · rcases hmode : effective_mode cfg { st with
          hog_windows := alSet st.hog_windows p.pid
            ((alGet st.hog_windows p.pid).getD 0 + 1) } with _ | _ | _ <;>
        simp [hcpu, hnotlt, hname, hex, hprot, hmode, isHogWarning,
          List.countP_cons, List.countP_append,
          set_priority_no_hogWarning, terminate_process_no_hogWarning]

/-- Witness for the amended C2 at a concrete input: with a window counter of
1 and windows = 2, an over-threshold cycle fires once and re-arms the
counter to 0. -/
theorem claim_C2_amended_hog_state_machine_witness :
    ((alGet (handle_resource_hogs hogParams sampleConfig defaultCtx
        { initialAgentState with hog_windows := [(7, 1)] }
        [{ hogProc with cpu_percent := some 90 }]).1.hog_windows 7).getD 0 = 0) ∧
    ((handle_resource_hogs hogParams sampleConfig defaultCtx
        { initialAgentState with hog_windows := [(7, 1)] }
        [{ hogProc with cpu_percent := some 90 }]).2.countP isHogWarning = 1) :=
  (claim_C2_amended_hog_state_machine hogParams sampleConfig defaultCtx
      { initialAgentState with hog_windows := [(7, 1)] }
      { hogProc with cpu_percent := some 90 }
      (by decide) (by decide) (by decide)).2.2.1 (by decide) (by decide)

/-- The priority setter never touches the suspicion-dedup set. -/
theorem set_priority_seen_suspicion (pr : Params) (cfg : AppConfig)
    (st : AgentState) (p : ProcInfo) (level reason : String) :
    (set_priority pr cfg st p level reason).1.seen_suspicion = st.seen_suspicion := by
  simp only [set_priority]
  repeat' split
  all_goals rfl

/-- The terminator never touches the suspicion-dedup set. -/
theorem terminate_process_seen_suspicion (pr : Params) (cfg : AppConfig)
    (st : AgentState) (p : ProcInfo) (reason : String) :
    (terminate_process pr cfg st p reason).1.seen_suspicion = st.seen_suspicion := by
  simp only [terminate_process]
  repeat' split
  all_goals rfl

/-- Suspicion enforcement never touches the hog-window counters. -/
theorem apply_suspicion_action_hog_windows (pr : Params) (cfg : AppConfig)
    (st : AgentState) (p : ProcInfo) (name : String) (finding : Suspicion) :
    (apply_suspicion_action pr cfg st p name finding).1.hog_windows = st.hog_windows := by
  unfold apply_suspicion_action
  rcases h : take_suspicion_action cfg (effective_mode cfg st) name finding.kind with
    _ | _ | level | _ <;>
    simp [h, set_priority_hog_windows, terminate_process_hog_windows]

/-- One finding step never touches the hog-window counters. -/
theorem suspicion_finding_step_hog_windows (pr : Params) (cfg : AppConfig)
    (p : ProcInfo) (name : String) (st : AgentState) (finding : Suspicion) :
    (suspicion_finding_step pr cfg p name st finding).1.hog_windows = st.hog_windows := by
  unfold suspicion_finding_step
  by_cases h : (p.pid, finding.kind) ∈ st.seen_suspicion <;>
    simp [h, apply_suspicion_action_hog_windows]

/-- Folding steps that preserve a projected field preserves it. -/
theorem foldl_stepFold_preserves {β γ : Type}
    (f : AgentState → β → AgentState × List Event) (g : AgentState → γ)
    (hf : ∀ st x, g (f st x).1 = g st) :
    ∀ (l : List β) (acc : AgentState × List Event),
      g ((l.foldl (stepFold f) acc).1) = g acc.1 := by
  intro l
  induction l with
  | nil =>
    intro acc
    rfl
  | cons x t ih =>
    intro acc
    rw [List.foldl_cons, ih]
    exact hf acc.1 x

/-- One process of the suspicion loop never touches the hog-window
counters. -/
theorem handle_suspicious_proc_hog_windows (pr : Params) (cfg : AppConfig)
    (st : AgentState) (p : ProcInfo) :
    (handle_suspicious_proc pr cfg st p).1.hog_windows = st.hog_windows := by
  unfold handle_suspicious_proc
  by_cases h : normalize_process_name p.name = "" ∨
      is_protected cfg (normalize_process_name p.name) = true
  · simp [h]
  · simp only [h, if_false]
    exact foldl_stepFold_preserves _ (fun s => s.hog_windows)
      (fun st f => suspicion_finding_step_hog_windows pr cfg p
        (normalize_process_name p.name) st f) _ (st, [])

/-- The suspicion phase never touches the hog-window counters. -/
theorem handle_suspicious_hog_windows (pr : Params) (cfg : AppConfig)
    (st : AgentState) (procs : List ProcInfo) :
    (handle_suspicious pr cfg st procs).1.hog_windows = st.hog_windows := by
  unfold handle_suspicious
  exact foldl_stepFold_preserves _ (fun s => s.hog_windows)
    (fun st p => handle_suspicious_proc_hog_windows pr cfg st p) procs (st, [])

/-- Entries surviving a pid filter have their pid in the filter list. -/
theorem mem_filter_contains {α : Type} (m : List (Nat × α)) (l : List Nat) :
    ∀ e ∈ m.filter (fun e => l.contains e.1), e.1 ∈ l := by
  intro e he
  have h := List.mem_filter.mp he
  simpa using h.2

/-- After the hog phase, every window counter belongs to a snapshot pid. -/
theorem handle_resource_hogs_hog_subset (pr : Params) (cfg : AppConfig)
    (ctx : ContextState) (st : AgentState) (procs : List ProcInfo) :
    ∀ e ∈ (handle_resource_hogs pr cfg ctx st procs).1.hog_windows,
      e.1 ∈ procs.map ProcInfo.pid := by
  intro e he
  exact mem_filter_contains _ _ e he

/-- Cleanup keeps the window counters and filters the other two maps to
snapshot pids. -/
theorem cleanup_state_spec (st : AgentState) (procs : List ProcInfo) :
    (cleanup_state st procs).hog_windows = st.hog_windows ∧
    (∀ e ∈ (cleanup_state st procs).priority_cache, e.1 ∈ procs.map ProcInfo.pid) ∧
    (∀ e ∈ (cleanup_state st procs).seen_suspicion, e.1 ∈ procs.map ProcInfo.pid) :=
  ⟨rfl, mem_filter_contains _ _, mem_filter_contains _ _⟩

/-- Claim C8: after a completed (non-raising) cycle, each of the three
per-pid maps — hog window counters, priority cache and suspicion-dedup
set — contains only pids present in that cycle's snapshot; entries for
departed pids are removed every tick. -/
theorem claim_C8_per_pid_maps_pruned (pr : Params) (cfg : AppConfig)
    (st : AgentState) (procs : List ProcInfo) (fg : Option String)
    (hok : (cycle_body pr cfg st procs fg).2.2 = none) :
    (∀ e ∈ (cycle_body pr cfg st procs fg).1.hog_windows,
      e.1 ∈ procs.map ProcInfo.pid) ∧
    (∀ e ∈ (cycle_body pr cfg st procs fg).1.priority_cache,
      e.1 ∈ procs.map ProcInfo.pid) ∧
    (∀ e ∈ (cycle_body pr cfg st procs fg).1.seen_suspicion,
      e.1 ∈ procs.map ProcInfo.pid) := by
  revert hok
  simp only [cycle_body]
  generalize apply_profile_override st (detect cfg (running_names procs) fg) = ctx
  generalize (log_context { st with latest_context := some ctx } ctx).1 = st1
  rcases happ : apply_profile_actions pr cfg st1 procs ctx with e | pe
  · intro hok
    simp at hok
  · intro _
    refine ⟨?_, (cleanup_state_spec _ procs).2.1, (cleanup_state_spec _ procs).2.2⟩
    intro e he
    rw [show (cleanup_state (handle_suspicious pr cfg
          (handle_resource_hogs pr cfg ctx pe.1 procs).1 procs).1 procs).hog_windows =
        (handle_suspicious pr cfg
          (handle_resource_hogs pr cfg ctx pe.1 procs).1 procs).1.hog_windows from rfl,
      handle_suspicious_hog_windows] at he
    exact handle_resource_hogs_hog_subset pr cfg ctx pe.1 procs e he

/-- Witness for C8 at a concrete input: a successful cycle over a one-process
snapshot leaves only that process's pid in the per-pid maps. -/
theorem claim_C8_per_pid_maps_pruned_witness :
    ((cycle_body hogParams sampleConfig initialAgentState [hogProc] none).2.2 = none) ∧
    (∀ e ∈ (cycle_body hogParams sampleConfig initialAgentState
        [hogProc] none).1.priority_cache, e.1 ∈ [hogProc].map ProcInfo.pid) :=
  ⟨by decide,
    (claim_C8_per_pid_maps_pruned hogParams sampleConfig initialAgentState
      [hogProc] none (by decide)).2.1⟩

/-- Equality of 32-bit words follows from equality of their Nat values. -/
theorem uint32_eq_of_toNat_eq {a b : UInt32} (h : a.toNat = b.toNat) : a = b := by
  cases a
  cases b
  simp only [UInt32.toNat] at h
  congr 1
  exact BitVec.eq_of_toNat_eq h

/-- Equality of characters follows from equality of their code points. -/
theorem char_eq_of_toNat_eq {a b : Char} (h : a.toNat = b.toNat) : a = b :=
  Char.ext (uint32_eq_of_toNat_eq h)

/-- The code-point order on character lists is transitive. -/
theorem charsLt_trans : ∀ {a b c : List Char},
    charsLt a b = true → charsLt b c = true → charsLt a c = true := by
  intro a
  induction a with
  | nil =>
    intro b c hab hbc
    cases b with
    | nil => exact absurd hab (by simp [charsLt])
    | cons y ys =>
      cases c with
      | nil => exact absurd hbc (by simp [charsLt])
      | cons z zs => simp [charsLt]
  | cons x xs ih =>
    intro b c hab hbc
    cases b with
    | nil => exact absurd hab (by simp [charsLt])
    | cons y ys =>
      cases c with
      | nil => exact absurd hbc (by simp [charsLt])
      | cons z zs =>
        simp only [charsLt] at hab hbc ⊢
        rcases Nat.lt_trichotomy x.toNat y.toNat with h1 | h1 | h1 <;>
          rcases Nat.lt_trichotomy y.toNat z.toNat with h2 | h2 | h2
        · simp [Nat.lt_trans h1 h2]
        · simp [h2 ▸ h1]
        · simp [h2, Nat.lt_asymm h2] at hbc
        · simp [h1 ▸ h2]
        · have hxz : x.toNat = z.toNat := h1.trans h2
          have hyx : ¬ x.toNat < y.toNat := by omega
          have hzy : ¬ y.toNat < x.toNat := by omega
          have c1 : ¬ y.toNat < z.toNat := by omega
          have c2 : ¬ z.toNat < y.toNat := by omega
          have c3 : ¬ x.toNat < z.toNat := by omega
          have c4 : ¬ z.toNat < x.toNat := by omega
          simp [hyx, hzy] at hab
          simp [c1, c2] at hbc
          simp [c3, c4]
          exact ih hab hbc
        · simp [h2, Nat.lt_asymm h2] at hbc
        · simp [h1, Nat.lt_asymm h1] at hab
        · simp [h1, Nat.lt_asymm h1] at hab
        · simp [h1, Nat.lt_asymm h1] at hab

/-- The code-point order on character lists is connex. -/
theorem charsLt_conn : ∀ a b : List Char,
    charsLt a b = true ∨ a = b ∨ charsLt b a = true := by
  intro a
  induction a with
  | nil =>
    intro b
    cases b <;> simp [charsLt]
  | cons x xs ih =>
    intro b
    cases b with
    | nil => simp [charsLt]
    | cons y ys =>
      rcases Nat.lt_trichotomy x.toNat y.toNat with h | h | h
      · left
        simp [charsLt, h]
      · have hxy : x = y := char_eq_of_toNat_eq h
        subst hxy
        rcases ih ys with h2 | h2 | h2
        · left
          simp [charsLt, h2]
        · right
          left
          rw [h2]
        · right
          right
          simp [charsLt, h2]
      · right
        right
        simp [charsLt, h]

/-- Python string order is transitive. -/
theorem pyStrLt_trans {a b c : String} (hab : pyStrLt a b = true)
    (hbc : pyStrLt b c = true) : pyStrLt a c = true :=
  charsLt_trans hab hbc

/-- Python string order is connex. -/
theorem pyStrLt_conn (a b : String) :
    pyStrLt a b = true ∨ a = b ∨ pyStrLt b a = true := by
  rcases charsLt_conn a.data b.data with h | h | h
  · exact Or.inl h
  · exact Or.inr (Or.inl (String.ext h))
  · exact Or.inr (Or.inr h)

/-- The suggestion sort order is total. -/
theorem suggLE_total (a b : LearningSuggestion) : suggLE a b ∨ suggLE b a := by
  unfold suggLE
  rcases pyStrLt_conn a.target b.target with h | h | h
  · exact Or.inl (Or.inl h)
  · rcases Nat.lt_trichotomy b.evidence_count a.evidence_count with h2 | h2 | h2
    · exact Or.inl (Or.inr ⟨h, Or.inl h2⟩)
    · rcases pyStrLt_conn a.value b.value with h3 | h3 | h3
      · exact Or.inl (Or.inr ⟨h, Or.inr ⟨h2.symm, Or.inl h3⟩⟩)
      · exact Or.inl (Or.inr ⟨h, Or.inr ⟨h2.symm, Or.inr h3⟩⟩)
      · exact Or.inr (Or.inr ⟨h.symm, Or.inr ⟨h2, Or.inl h3⟩⟩)
    · exact Or.inr (Or.inr ⟨h.symm, Or.inl h2⟩)
  · exact Or.inr (Or.inl h)

/-- The suggestion sort order is transitive. -/
theorem suggLE_trans (a b c : LearningSuggestion)
    (hab : suggLE a b) (hbc : suggLE b c) : suggLE a c := by
  unfold suggLE at *
  rcases hab with h1 | ⟨e1, h1⟩
  · rcases hbc with h2 | ⟨e2, h2⟩
    · exact Or.inl (pyStrLt_trans h1 h2)
    · exact Or.inl (e2 ▸ h1)
  · rcases hbc with h2 | ⟨e2, h2⟩
    · exact Or.inl (e1 ▸ h2)
    · refine Or.inr ⟨e1.trans e2, ?_⟩
      rcases h1 with h1 | ⟨q1, h1⟩
      · rcases h2 with h2 | ⟨q2, h2⟩
        · exact Or.inl (Nat.lt_trans h2 h1)
        · exact Or.inl (q2 ▸ h1)
      · rcases h2 with h2 | ⟨q2, h2⟩
        · exact Or.inl (q1 ▸ h2)
        · refine Or.inr ⟨q1.trans q2, ?_⟩
          rcases h1 with v1 | v1
          · rcases h2 with v2 | v2
            · exact Or.inl (pyStrLt_trans v1 v2)
            · exact Or.inl (v2 ▸ v1)
          · rcases h2 with v2 | v2
            · exact Or.inl (v1 ▸ v2)
            · exact Or.inr (v1.trans v2)

/-- Replacement by key preserves each element's key. -/
theorem suggKey_replace (t s : LearningSuggestion) :
    suggKey (if suggKey t = suggKey s then s else t) = suggKey t := by
  by_cases h : suggKey t = suggKey s
  · simp [h]
  · simp [h]

/-- In a key-distinct list, elements with equal keys are equal. -/
theorem pairwise_key_unique :
    ∀ (l : List LearningSuggestion),
      List.Pairwise (fun a b => suggKey a ≠ suggKey b) l →
      ∀ {r r' : LearningSuggestion}, r ∈ l → r' ∈ l →
        suggKey r = suggKey r' → r = r' := by
  intro l
  induction l with
  | nil =>
    intro _ r r' hr
    cases hr
  | cons a t ih =>
    intro hp r r' hr hr' hk
    have ha := List.pairwise_cons.mp hp
    rcases List.mem_cons.mp hr with h1 | h1
    · rcases List.mem_cons.mp hr' with h2 | h2
      · rw [h1, h2]
      · subst h1
        exact absurd hk (ha.1 r' h2)
    · rcases List.mem_cons.mp hr' with h2 | h2
      · subst h2
        exact absurd hk.symm (ha.1 r h1)
      · exact ih ha.2 h1 h2 hk

/-- One dedup step keeps the keys pairwise distinct. -/
theorem dedupStep_pairwise (acc : List LearningSuggestion) (s : LearningSuggestion)
    (h : List.Pairwise (fun a b => suggKey a ≠ suggKey b) acc) :
    List.Pairwise (fun a b => suggKey a ≠ suggKey b) (dedupStep acc s) := by
  unfold dedupStep
  rcases hf : acc.find? (fun t => decide (suggKey t = suggKey s)) with _ | ex <;>
    simp only [hf]
  · rw [List.pairwise_append]
    refine ⟨h, List.pairwise_singleton _ _, ?_⟩
    intro a ha b hb
    have hbs : b = s := by simpa using hb
    subst hbs
    have hall := List.find?_eq_none.mp hf a ha
    simpa using hall
  · split
    · exact List.Pairwise.map (fun t => if suggKey t = suggKey s then s else t)
        (fun a b hab => by rw [suggKey_replace, suggKey_replace]; exact hab) h
    · exact h

/-- One dedup step only produces elements of the input. -/
theorem dedupStep_subset (acc : List LearningSuggestion) (s : LearningSuggestion) :
    ∀ r ∈ dedupStep acc s, r ∈ acc ∨ r = s := by
  intro r hr
  unfold dedupStep at hr
  rcases hf : acc.find? (fun t => decide (suggKey t = suggKey s)) with _ | ex <;>
    simp only [hf] at hr
  · rcases List.mem_append.mp hr with hm | hm
    · exact Or.inl hm
    · exact Or.inr (by simpa using hm)
  · split at hr
    · rcases List.mem_map.mp hr with ⟨t, ht, rfl⟩
      by_cases hk : suggKey t = suggKey s
      · exact Or.inr (by simp [hk])
      · refine Or.inl ?_
        simpa [hk] using ht
    · exact Or.inl hr

/-- One dedup step never loses a key and never lowers its evidence count. -/
theorem dedupStep_dominates (acc : List LearningSuggestion) (s : LearningSuggestion)
    (hp : List.Pairwise (fun a b => suggKey a ≠ suggKey b) acc) :
    ∀ r ∈ acc, ∃ q ∈ dedupStep acc s,
      suggKey q = suggKey r ∧ r.evidence_count ≤ q.evidence_count := by
  intro r hr
  unfold dedupStep
  rcases hf : acc.find? (fun t => decide (suggKey t = suggKey s)) with _ | ex <;>
    simp only [hf]
  · exact ⟨r, List.mem_append.mpr (Or.inl hr), rfl, Nat.le_refl _⟩
  · have hexmem : ex ∈ acc := List.mem_of_find?_eq_some hf
    have hexkey : suggKey ex = suggKey s := by simpa using List.find?_some hf
    split
    · rename_i hlt
      by_cases hk : suggKey r = suggKey s
      · have hrex : r = ex := pairwise_key_unique acc hp hr hexmem (hk.trans hexkey.symm)
        refine ⟨s, List.mem_map.mpr ⟨r, hr, by simp [hk]⟩, hk.symm, ?_⟩
        subst hrex
        omega
      · exact ⟨r, List.mem_map.mpr ⟨r, hr, by simp [hk]⟩, rfl, Nat.le_refl _⟩
    · exact ⟨r, hr, rfl, Nat.le_refl _⟩

/-- The newly processed element is dominated by the step's result. -/
theorem dedupStep_covers (acc : List LearningSuggestion) (s : LearningSuggestion) :
    ∃ q ∈ dedupStep acc s,
      suggKey q = suggKey s ∧ s.evidence_count ≤ q.evidence_count := by
  unfold dedupStep
  rcases hf : acc.find? (fun t => decide (suggKey t = suggKey s)) with _ | ex <;>
    simp only [hf]
  · exact ⟨s, List.mem_append.mpr (Or.inr (by simp)), rfl, Nat.le_refl _⟩
  · have hexmem : ex ∈ acc := List.mem_of_find?_eq_some hf
    have hexkey : suggKey ex = suggKey s := by simpa using List.find?_some hf
    split
    · exact ⟨s, List.mem_map.mpr ⟨ex, hexmem, by simp [hexkey]⟩, rfl, Nat.le_refl _⟩
    · rename_i hlt
      exact ⟨ex, hexmem, hexkey, by omega⟩

/-- Invariant of the dedup fold: keys stay pairwise distinct, every
accumulator element comes from the processed input, and every processed
element is dominated by an accumulator element of the same key. -/
theorem dedupe_fold_inv (l : List LearningSuggestion) :
    ∀ (processed acc : List LearningSuggestion),
      List.Pairwise (fun a b => suggKey a ≠ suggKey b) acc →
      (∀ r ∈ acc, r ∈ processed) →
      (∀ t ∈ processed, ∃ q ∈ acc,
        suggKey q = suggKey t ∧ t.evidence_count ≤ q.evidence_count) →
      List.Pairwise (fun a b => suggKey a ≠ suggKey b) (l.foldl dedupStep acc) ∧
      (∀ r ∈ l.foldl dedupStep acc, r ∈ processed ++ l) ∧
      (∀ t ∈ processed ++ l, ∃ q ∈ l.foldl dedupStep acc,
        suggKey q = suggKey t ∧ t.evidence_count ≤ q.evidence_count) := by
  induction l with
  | nil =>
    intro processed acc h1 h2 h3
    simpa using ⟨h1, h2, h3⟩
  | cons s t ih =>
    intro processed acc h1 h2 h3
    have step := ih (processed ++ [s]) (dedupStep acc s)
      (dedupStep_pairwise acc s h1)
      (by
        intro r hr
        rcases dedupStep_subset acc s r hr with hm | rfl
        · exact List.mem_append.mpr (Or.inl (h2 r hm))
        · exact List.mem_append.mpr (Or.inr (by simp)))
      (by
        intro u hu
        rcases List.mem_append.mp hu with hm | hm
        · rcases h3 u hm with ⟨q, hq, hkq, hle⟩
          rcases dedupStep_dominates acc s h1 q hq with ⟨q2, hq2, hkq2, hle2⟩
          exact ⟨q2, hq2, hkq2.trans hkq, Nat.le_trans hle hle2⟩
        · have hus : u = s := by simpa using hm
          subst hus
          exact dedupStep_covers acc u)
    refine ⟨step.1, ?_, ?_⟩
    · intro r hr
      have := step.2.1 r hr
      simpa [List.append_assoc] using this
    · intro u hu
      apply step.2.2
      simpa [List.append_assoc] using hu

/-- Every element of the deduplicated list comes from the raw list. -/
theorem dedupe_subset (l : List LearningSuggestion) :
    ∀ r ∈ dedupe l, r ∈ l := by
  intro r hr
  have h := (dedupe_fold_inv l [] [] (by simp) (by simp) (by simp)).2.1 r hr
  simpa using h

/-- Claim C5: the derived suggestion list is a deterministic function of the
counters and the configuration (it is a pure function of them by
construction); it contains no two entries with the same (target, value)
pair, every retained entry comes from the raw candidate list and dominates
the evidence count of every raw candidate with its key, and the list is
sorted by target ascending, then evidence count descending, then value
ascending. -/
theorem claim_C5_suggestion_list (cfg : AppConfig) (M : Nat) (ls : LearningState) :
    List.Pairwise (fun a b => suggKey a ≠ suggKey b) (build_suggestions cfg M ls) ∧
    List.Sorted suggLE (build_suggestions cfg M ls) ∧
    (∀ s ∈ build_suggestions cfg M ls,
      s ∈ raw_suggestions cfg M ls ∧
      ∀ t ∈ raw_suggestions cfg M ls, suggKey t = suggKey s →
        t.evidence_count ≤ s.evidence_count) := by
  have hperm : (build_suggestions cfg M ls).Perm (dedupe (raw_suggestions cfg M ls)) :=
    List.perm_insertionSort suggLE _
  have hinv := dedupe_fold_inv (raw_suggestions cfg M ls) [] []
    (by simp) (by simp) (by simp)
  refine ⟨?_, ?_, ?_⟩
  · exact (List.Perm.pairwise_iff (fun hne heq => hne heq.symm) hperm).mpr hinv.1
  · haveI : IsTotal LearningSuggestion suggLE := ⟨suggLE_total⟩
    haveI : IsTrans LearningSuggestion suggLE := ⟨fun a b c => suggLE_trans a b c⟩
    exact List.sorted_insertionSort suggLE _
  · intro s hs
    have hs1 : s ∈ dedupe (raw_suggestions cfg M ls) := hperm.mem_iff.mp hs
    refine ⟨dedupe_subset _ s hs1, ?_⟩
    intro t ht hkey
    rcases hinv.2.2 t (by simpa using ht) with ⟨q, hq, hkq, hev⟩
    have hqs : q = s := pairwise_key_unique _ hinv.1 hq hs1 (hkq.trans hkey)
    rw [hqs] at hev
    exact hev

/-- Witness for C5 at a concrete input: the game-process suggestion produced
from the sample counters is a raw candidate dominating its key. -/
theorem claim_C5_suggestion_list_witness :
    ((⟨"game_processes", "x",
        "Frequently foreground while gaming profile is active", "low", 1⟩ :
        LearningSuggestion) ∈ build_suggestions sampleConfig 1 learnStateBoth) ∧
    ((⟨"game_processes", "x",
        "Frequently foreground while gaming profile is active", "low", 1⟩ :
        LearningSuggestion) ∈ raw_suggestions sampleConfig 1 learnStateBoth ∧
      ∀ t ∈ raw_suggestions sampleConfig 1 learnStateBoth,
        suggKey t = suggKey (⟨"game_processes", "x",
          "Frequently foreground while gaming profile is active", "low", 1⟩ :
          LearningSuggestion) →
        t.evidence_count ≤ (⟨"game_processes", "x",
          "Frequently foreground while gaming profile is active", "low", 1⟩ :
          LearningSuggestion).evidence_count) :=
  ⟨by decide,
    (claim_C5_suggestion_list sampleConfig 1 learnStateBoth).2.2 _ (by decide)⟩

/-- Hog candidates always target the resource allowlist. -/
theorem hog_suggestions_target (cfg : AppConfig) (M : Nat) (ls : LearningState) :
    ∀ s ∈ hog_suggestions cfg M ls, s.target = "resource_allowlist" := by
  intro s hs
  rcases List.mem_filterMap.mp hs with ⟨e, he, hsome⟩
  dsimp only at hsome
  split at hsome
  · exact absurd hsome (by simp)
  · split at hsome
    · exact absurd hsome (by simp)
    · have h := Option.some.inj hsome
      rw [← h]

/-- Recorder candidates always target the authorized-recorder list. -/
theorem recorder_suggestions_target (cfg : AppConfig) (M : Nat) (ls : LearningState) :
    ∀ s ∈ recorder_suggestions cfg M ls, s.target = "suspicious.authorized_recorders" := by
  intro s hs
  rcases List.mem_filterMap.mp hs with ⟨e, he, hsome⟩
  dsimp only at hsome
  split at hsome
  · exact absurd hsome (by simp)
  · split at hsome
    · exact absurd hsome (by simp)
    · split at hsome
      · exact absurd hsome (by simp)
      · split at hsome
        · exact absurd hsome (by simp)
        · have h := Option.some.inj hsome
          rw [← h]

/-- A streaming-processes candidate of the foreground loop comes from a
(streaming, name) counter entry of count at least M for a name that is not
protected, not a configured streaming process and not a configured game
process. -/
theorem foreground_suggestions_streaming (cfg : AppConfig) (M : Nat)
    (ls : LearningState) :
    ∀ s ∈ foreground_suggestions cfg M ls, s.target = "streaming_processes" →
      ∃ c, (("streaming", s.value), c) ∈ ls.foreground_profile_seen ∧
        M ≤ c ∧ s.evidence_count = c ∧
        s.value ∉ cfg.protected_processes ∧
        s.value ∉ cfg.streaming_processes ∧
        s.value ∉ cfg.game_processes := by
  intro s hs htarget
  rcases List.mem_flatMap.mp hs with ⟨e, he, hmem⟩
  dsimp only at hmem
  split at hmem
  · cases hmem
  · rename_i hcond
    push_neg at hcond
    rcases List.mem_append.mp hmem with hg | hstr
    · split at hg
      · have hseq : s = ⟨"game_processes", e.1.2,
            "Frequently foreground while gaming profile is active",
            if M * 2 ≤ e.2 then "high" else "low", e.2⟩ := by simpa using hg
        rw [hseq] at htarget
        simp at htarget
      · cases hg
    · split at hstr
      · rename_i hsc
        have hseq : s = ⟨"streaming_processes", e.1.2,
            "Frequently foreground while streaming profile is active",
            if M * 2 ≤ e.2 then "high" else "low", e.2⟩ := by simpa using hstr
        subst hseq
        have hemem : (("streaming", e.1.2), e.2) ∈ ls.foreground_profile_seen := by
          rw [show (("streaming", e.1.2), e.2) = e from by rw [← hsc.1]]
          exact he
        exact ⟨e.2, hemem, hcond.1, rfl, hcond.2, hsc.2.1, hsc.2.2⟩
      · cases hstr

/-- Claim C6 counterexample: with min_occurrences 1 and a name `x` seen
foreground under both the gaming and the streaming profiles, the derivation
emits both a game_processes and a streaming_processes suggestion for `x`,
contradicting the claim that a name receiving a game_processes suggestion
never also receives a streaming_processes one. -/
theorem claim_C6_counterexample :
    (∃ s ∈ build_suggestions sampleConfig 1 learnStateBoth,
      s.target = "game_processes" ∧ s.value = "x") ∧
    (∃ s ∈ build_suggestions sampleConfig 1 learnStateBoth,
      s.target = "streaming_processes" ∧ s.value = "x") := by
  constructor
  · decide
  · decide

/-- Claim C6 (amended): a streaming_processes suggestion for a name is
emitted only if the (streaming, name) foreground count is at least
min_occurrences and the name is neither protected, nor a configured
streaming process, nor a configured game process.  The exclusion covers
only names already classified (configured) as game processes: a name for
which a game_processes suggestion is produced in the same derivation may
also receive a streaming_processes suggestion. -/
theorem claim_C6_amended_streaming_only_if (cfg : AppConfig) (M : Nat)
    (ls : LearningState) :
    ∀ s ∈ build_suggestions cfg M ls, s.target = "streaming_processes" →
      ∃ c, (("streaming", s.value), c) ∈ ls.foreground_profile_seen ∧
        M ≤ c ∧ s.evidence_count = c ∧
        s.value ∉ cfg.protected_processes ∧
        s.value ∉ cfg.streaming_processes ∧
        s.value ∉ cfg.game_processes := by
  intro s hs htarget
  have hs1 : s ∈ dedupe (raw_suggestions cfg M ls) :=
    (List.perm_insertionSort suggLE _).mem_iff.mp hs
  have hs2 : s ∈ raw_suggestions cfg M ls := dedupe_subset _ s hs1
  unfold raw_suggestions at hs2
  rcases List.mem_append.mp hs2 with h12 | h3
  · rcases List.mem_append.mp h12 with h1 | h2
    · have h := hog_suggestions_target cfg M ls s h1
      rw [h] at htarget
      exact absurd htarget (by decide)
    · have h := recorder_suggestions_target cfg M ls s h2
      rw [h] at htarget
      exact absurd htarget (by decide)
  · exact foreground_suggestions_streaming cfg M ls s h3 htarget

/-- Witness for the amended C6 at a concrete input: the streaming suggestion
for `x` satisfies all the extraction conditions. -/
theorem claim_C6_amended_streaming_only_if_witness :
    ((⟨"streaming_processes", "x",
        "Frequently foreground while streaming profile is active", "low", 1⟩ :
        LearningSuggestion) ∈ build_suggestions sampleConfig 1 learnStateBoth) ∧
    (∃ c, (("streaming", "x"), c) ∈ learnStateBoth.foreground_profile_seen ∧
      1 ≤ c ∧ 1 = c ∧
      "x" ∉ sampleConfig.protected_processes ∧
      "x" ∉ sampleConfig.streaming_processes ∧
      "x" ∉ sampleConfig.game_processes) :=
  ⟨by decide,
    claim_C6_amended_streaming_only_if sampleConfig 1 learnStateBoth
      ⟨"streaming_processes", "x",
        "Frequently foreground while streaming profile is active", "low", 1⟩
      (by decide) rfl⟩

end Fixxer
